import Mathlib

/-!
Verification of the rustdesk-api billing and relay-whitelist core.

Shallow embedding of:
- the money codec `FenToYuan` / `YuanToFen` (model package),
- the relay whitelist store `Allow` / `Consume` / `Check` / `cleanup`
  (service/relay_whitelist.go) and the controller clamp `RelayAllow`,
- the EasyPay signature engine `Sign` / `Verify` (service/payment.go),
- the order lifecycle: `CreateOrder`, `HandleNotify`,
  `activateOrExtendSubscription`, `RefundOrder` (subscription service) and
  the payment submission transaction (api controller `Payment.Submit`).

Go strings are modelled as Lean `String` / `List Char`; int64 values as `Int`
(overflow checks that the source performs explicitly are carried over with the
explicit `maxInt64` bound).  The MD5 digest and the calendar `AddDate`
primitive are external pure primitives; the embedding is parametric in them
(`md5hex`, `addDate`).  Database tables are association lists; gorm row
queries (`First`, row locks) become `List.find?`, updates become `List.map`
keyed by the primary key, and `DB.Transaction` rollback is modelled by
returning the unchanged state on error.
-/

/-! ## Money codec (model/subscription.go: FenToYuan / YuanToFen) -/

/-- Decimal digit character; only used with arguments below 10. -/
def digitChar (n : Nat) : Char :=
  match n with
  | 0 => '0' | 1 => '1' | 2 => '2' | 3 => '3' | 4 => '4'
  | 5 => '5' | 6 => '6' | 7 => '7' | 8 => '8' | _ => '9'

/-- Decimal digits of a natural number, most significant first.
Fuel-based so that it is structurally recursive; `natDigits` supplies
enough fuel. -/
def natDigitsAux : Nat → Nat → List Char
  | 0, _ => []
  | fuel + 1, n =>
    if n < 10 then [digitChar n]
    else natDigitsAux fuel (n / 10) ++ [digitChar (n % 10)]

/-- Decimal representation of a natural number (Go fmt %d on a nonnegative
value). -/
def natDigits (n : Nat) : List Char :=
  natDigitsAux (n + 1) n

/-- Two-digit zero-padded representation (Go fmt %02d); the source only
applies it to `fen % 100`, which is below 100. -/
def pad2 (r : Nat) : List Char :=
  [digitChar (r / 10), digitChar (r % 10)]

/-- FenToYuan: minor units to decimal string, sign first, exactly two
fractional digits.  Mirrors `fmt.Sprintf("%s%d.%02d", sign, fen/100, fen%100)`
after the `if fen < 0 { sign = "-"; fen = -fen }` step (int64 negation
overflow at the minimum value is outside the modelled range). -/
def FenToYuan (fen : Int) : String :=
  let sign : List Char := if fen < 0 then ['-'] else []
  let a : Nat := fen.natAbs
  (sign ++ natDigits (a / 100) ++ '.' :: pad2 (a % 100)).asString

/-- Whitespace predicate of Go strings.TrimSpace (ASCII part; the money
strings involved contain no other runes). -/
def goIsSpace (c : Char) : Bool :=
  c = ' ' || c = '\t' || c = '\n' || c = '\r' ||
    c = Char.ofNat 11 || c = Char.ofNat 12

/-- strings.TrimSpace on a character list. -/
def trimSpace (l : List Char) : List Char :=
  ((l.dropWhile goIsSpace).reverse.dropWhile goIsSpace).reverse

/-- Split at every dot.  The source uses strings.SplitN(s, ".", 3) and
rejects more than two parts; splitting at every dot gives the same parts
whenever the count check passes and a length above 2 in exactly the same
cases, so the two are interchangeable under the check below. -/
def splitDots : List Char → List (List Char)
  | [] => [[]]
  | c :: cs =>
    if c = '.' then [] :: splitDots cs
    else
      match splitDots cs with
      | [] => [[c]]
      | p :: ps => (c :: p) :: ps

/-- isAllDigits of the source (every rune between ASCII 0 and 9). -/
def isAllDigits (l : List Char) : Bool :=
  l.all fun c => decide ('0' ≤ c) && decide (c ≤ '9')

/-- Value of a digit string (the accumulator loop of strconv.ParseInt
restricted to digit-only input). -/
def parseDigits (l : List Char) : Nat :=
  l.foldl (fun acc c => acc * 10 + (c.toNat - 48)) 0

/-- The int64 upper bound used by the overflow check in the source. -/
def maxInt64 : Int := 9223372036854775807

/-- YuanToFen: strict decimal string to minor units.  Follows the source
step by step: trim, drop a leading plus, reject a minus, split at the dot,
pad the fractional part to two digits, digit check, parse both parts with
the int64 overflow behaviour of ParseInt, final overflow check. -/
def YuanToFen (yuan : String) : Except String Int :=
  let s := trimSpace yuan.toList
  if s = [] then .error "invalid money"
  else
    let s := match s with
      | '+' :: rest => rest
      | other => other
    match s with
    | '-' :: _ => .error "invalid money: negative"
    | s =>
      let parts := splitDots s
      if parts.length = 0 ∨ parts.length > 2 then .error "invalid money format"
      else
        let intPart := parts.headD []
        let fracPart := (parts.drop 1).headD []
        let intPart := if intPart = [] then ['0'] else intPart
        match (match fracPart.length with
          | 0 => some ['0', '0']
          | 1 => some (fracPart ++ ['0'])
          | 2 => some fracPart
          | _ => none) with
        | none => .error "invalid money: too many decimal places"
        | some fracPart =>
          if ¬ (isAllDigits intPart ∧ isAllDigits fracPart) then
            .error "invalid money: non-digit characters"
          else
            let whole : Int := (parseDigits intPart : Int)
            let cents : Int := (parseDigits fracPart : Int)
            if whole > maxInt64 then .error "invalid money: integer part"
            else if cents > 99 then .error "invalid money: decimal part"
            else if whole > (maxInt64 - cents) / 100 then .error "invalid money: overflow"
            else .ok (whole * 100 + cents)

/-! ## Relay whitelist store (service/relay_whitelist.go) -/

/-- One whitelist entry: remaining slots and absolute expiry (unix seconds). -/
structure WhitelistItem where
  slots : Int
  expireAt : Int
deriving DecidableEq, Repr

/-- The in-memory map `items`, keyed by uuid. -/
abbrev WhitelistMap := List (String × WhitelistItem)

/-- Go `delete(s.items, uuid)`. -/
def wErase (m : WhitelistMap) (uuid : String) : WhitelistMap :=
  m.filter fun p => !(p.1 == uuid)

/-- Go `s.items[uuid] = item` (replaces any previous binding). -/
def wInsert (m : WhitelistMap) (uuid : String) (item : WhitelistItem) : WhitelistMap :=
  (uuid, item) :: wErase m uuid

/-- Go `item, exists := s.items[uuid]`. -/
def wLookup (m : WhitelistMap) (uuid : String) : Option WhitelistItem :=
  (m.find? fun p => p.1 == uuid).map Prod.snd

/-- Allow of the whitelist service: defaults for non-positive slots and ttl,
then unconditional overwrite with a fresh expiry `now + ttlSec`. -/
def Allow (m : WhitelistMap) (uuid : String) (slots ttlSec : Int) (now : Int) : WhitelistMap :=
  let slots := if slots ≤ 0 then 2 else slots
  let ttlSec := if ttlSec ≤ 0 then 120 else ttlSec
  wInsert m uuid { slots := slots, expireAt := now + ttlSec }

/-- Consume of the whitelist service.  `time.Now().After(expireAt)` is the
strict comparison `now > expireAt`. -/
def Consume (m : WhitelistMap) (uuid : String) (now : Int) : WhitelistMap × Bool :=
  match wLookup m uuid with
  | none => (m, false)
  | some item =>
    if now > item.expireAt then (wErase m uuid, false)
    else if item.slots ≤ 0 then (wErase m uuid, false)
    else
      let item' : WhitelistItem := { item with slots := item.slots - 1 }
      if item'.slots ≤ 0 then (wErase m uuid, true)
      else (wInsert m uuid item', true)

/-- Check of the whitelist service (read-only). -/
def Check (m : WhitelistMap) (uuid : String) (now : Int) : Bool :=
  match wLookup m uuid with
  | none => false
  | some item =>
    if now > item.expireAt then false
    else decide (item.slots > 0)

/-- The body of the periodic cleanup sweep: drop expired or slot-exhausted
entries. -/
def cleanup (m : WhitelistMap) (now : Int) : WhitelistMap :=
  m.filter fun p => !(decide (now > p.2.expireAt) || decide (p.2.slots ≤ 0))

/-- Stats of the whitelist service: number of live entries. -/
def Stats (m : WhitelistMap) : Nat :=
  m.length

/-- Safety bound of the internal controller (http/controller/api/internal.go). -/
def MaxUUIDLength : Nat := 128

/-- Safety bound of the internal controller. -/
def MaxSlots : Int := 10

/-- Safety bound of the internal controller. -/
def MaxTTLSec : Int := 300

/-- RelayAllow of the internal controller: uuid validation, clamping of
slots and ttl to defaults and maxima, then the service Allow.  Returns the
updated map together with the echoed resolved slots and ttl.  Go `len(uuid)`
counts bytes; the uuids involved are ASCII, where `String.length` agrees. -/
def RelayAllow (m : WhitelistMap) (uuid : String) (slots ttlSec : Int) (now : Int) :
    Except String (WhitelistMap × Int × Int) :=
  if uuid = "" then .error "uuid is required"
  else if uuid.length > MaxUUIDLength then .error "uuid too long"
  else
    let slots := if slots ≤ 0 then 2 else if slots > MaxSlots then MaxSlots else slots
    let ttlSec := if ttlSec ≤ 0 then 120 else if ttlSec > MaxTTLSec then MaxTTLSec else ttlSec
    .ok (Allow m uuid slots ttlSec now, slots, ttlSec)

/-- States of the whitelist map reachable by any sequence of Allow, Consume
and cleanup sweeps from the empty map of the constructor. -/
inductive WReachable : WhitelistMap → Prop
  | empty : WReachable []
  | allow (m : WhitelistMap) (uuid : String) (slots ttlSec now : Int) :
      WReachable m → WReachable (Allow m uuid slots ttlSec now)
  | consume (m : WhitelistMap) (uuid : String) (now : Int) :
      WReachable m → WReachable (Consume m uuid now).1
  | sweep (m : WhitelistMap) (now : Int) :
      WReachable m → WReachable (cleanup m now)

/-! ## Signature engine (service/payment.go) -/

/-- Payment configuration (model.PaymentConfig). -/
structure PaymentConfig where
  enable : Bool
  baseURL : String
  pid : String
  key : String
  notifyURL : String
  returnURL : String
  timeout : Int
deriving DecidableEq, Repr

/-- Callback parameter maps as ordered association lists; a Go map is such a
list with pairwise distinct keys. -/
abbrev Params := List (String × String)

/-- Go map indexing `params[k]`: the bound value, or the empty string when
the key is absent. -/
def pget (params : Params) (k : String) : String :=
  match params.find? fun p => p.1 == k with
  | some p => p.2
  | none => ""

/-- Step 1 of Sign: drop empty values and the sign and sign_type fields. -/
def signFiltered (params : Params) : Params :=
  params.filter fun p => !(p.2 == "" || p.1 == "sign" || p.1 == "sign_type")

/-- Insertion into a sorted list of strings. -/
def insertSorted (s : String) : List String → List String
  | [] => [s]
  | t :: ts => if s ≤ t then s :: t :: ts else t :: insertSorted s ts

/-- ASCII-ascending sort of the key list (Go sort.Strings; any comparison
sort yields this unique sorted arrangement). -/
def sortStrings (l : List String) : List String :=
  l.foldr insertSorted []

/-- Sign: filter, sort keys ascending, join k=v pairs with ampersands,
append the configured secret, hash.  The MD5 lower-case hex digest is an
external pure primitive, passed in as `md5hex`. -/
def Sign (md5hex : String → String) (cfg : PaymentConfig) (params : Params) : String :=
  let filtered := signFiltered params
  let keys := sortStrings (filtered.map Prod.fst)
  let pairs := keys.map fun k => k ++ "=" ++ pget filtered k
  let str := String.intercalate "&" pairs
  md5hex (str ++ cfg.key)

/-- strings.ToLower restricted to ASCII as applied to hex digests. -/
def lowerChar (c : Char) : Char :=
  if 'A' ≤ c ∧ c ≤ 'Z' then Char.ofNat (c.toNat + 32) else c

/-- strings.ToLower on a whole string. -/
def goToLower (s : String) : String :=
  (s.toList.map lowerChar).asString

/-- Verify: absent or empty sign fails; otherwise the supplied signature is
compared to the recomputed one case-insensitively.  subtle.ConstantTimeCompare
returns 1 exactly on byte equality, hence the plain equality here. -/
def Verify (md5hex : String → String) (cfg : PaymentConfig) (params : Params) : Bool :=
  let got := pget params "sign"
  if got = "" then false
  else goToLower got == goToLower (Sign md5hex cfg params)

/-! ## Order and subscription data model (model/subscription.go) -/

/-- Order status constants 0..3 of the model package. -/
inductive OrderStatus where
  | pending
  | paid
  | refunded
  | closed
deriving DecidableEq, Repr

/-- Subscription status constants 1..3 of the model package. -/
inductive SubStatus where
  | active
  | expired
  | canceled
deriving DecidableEq, Repr

/-- Plan status uses the common status codes: 1 enabled, 2 disabled
(model.COMMON_STATUS_ENABLE / COMMON_STATUS_DISABLED, defined in the model
package of the repository). -/
def COMMON_STATUS_ENABLE : Nat := 1

/-- Disabled common status code. -/
def COMMON_STATUS_DISABLED : Nat := 2

/-- Period unit constant. -/
def PeriodUnitDay : String := "day"

/-- Period unit constant. -/
def PeriodUnitMonth : String := "month"

/-- Period unit constant. -/
def PeriodUnitYear : String := "year"

/-- SubscriptionPlan row. -/
structure Plan where
  id : Nat
  code : String
  name : String
  price : Int
  periodUnit : String
  periodCount : Int
  status : Nat
  sortOrder : Int
deriving DecidableEq, Repr

/-- Order row.  Timestamps are unix seconds; `createdAt = 0` stands for the
zero time of the gorm auto-timestamp. -/
structure Order where
  id : Nat
  userId : Nat
  planId : Nat
  outTradeNo : String
  tradeNo : String
  subject : String
  amount : Int
  amountYuan : String
  status : OrderStatus
  paySubmitAt : Int
  paidAt : Int
  refundedAt : Int
  notifyPayload : String
  createdAt : Int
deriving DecidableEq, Repr

/-- UserSubscription row (unique index on userId). -/
structure Subscription where
  id : Nat
  userId : Nat
  planId : Nat
  lastOrderId : Nat
  startAt : Int
  expireAt : Int
  status : SubStatus
deriving DecidableEq, Repr

/-- The transactional store owned by the order lifecycle manager. -/
structure DBState where
  orders : List Order
  subs : List Subscription
  plans : List Plan
deriving DecidableEq, Repr

/-- gorm `First` on plans by primary key. -/
def findPlan (plans : List Plan) (planId : Nat) : Option Plan :=
  plans.find? fun p => p.id == planId

/-- gorm `First` on orders by the unique out_trade_no. -/
def findOrderByOutTradeNo (orders : List Order) (otn : String) : Option Order :=
  orders.find? fun o => o.outTradeNo == otn

/-- gorm `First` on orders by primary key. -/
def findOrderById (orders : List Order) (oid : Nat) : Option Order :=
  orders.find? fun o => o.id == oid

/-- gorm `First` on subscriptions by the unique user id. -/
def findSub (subs : List Subscription) (userId : Nat) : Option Subscription :=
  subs.find? fun s => s.userId == userId

/-! ## Renewal calculator and subscription upsert (subscription service) -/

/-- calcExpireTime: dispatch on the period unit, delegating the calendar
arithmetic to `addDate base years months days` (Go time.AddDate, an external
pure primitive).  Unknown units fall back to months. -/
def calcExpireTime (addDate : Int → Int → Int → Int → Int)
    (baseTime : Int) (periodUnit : String) (periodCount : Int) : Int :=
  if periodUnit = PeriodUnitDay then addDate baseTime 0 0 periodCount
  else if periodUnit = PeriodUnitMonth then addDate baseTime 0 periodCount 0
  else if periodUnit = PeriodUnitYear then addDate baseTime periodCount 0 0
  else addDate baseTime 0 periodCount 0

/-- activateOrExtendSubscription: plan lookup, row-locked read of the single
subscription row of the user, renewal arithmetic, then upsert forcing the
status to active.  `newSubId` models the primary key gorm assigns on create. -/
def activateOrExtendSubscription (addDate : Int → Int → Int → Int → Int)
    (plans : List Plan) (subs : List Subscription)
    (userId planId orderId : Nat) (now : Int) (newSubId : Nat) :
    Except String (List Subscription) :=
  match findPlan plans planId with
  | none => .error "PlanNotFound"
  | some plan =>
    match findSub subs userId with
    | none =>
      let startAt := now
      let expireAt := calcExpireTime addDate now plan.periodUnit plan.periodCount
      .ok (subs ++ [{ id := newSubId, userId := userId, planId := planId,
                      lastOrderId := orderId, startAt := startAt,
                      expireAt := expireAt, status := .active }])
    | some sub =>
      let se : Int × Int :=
        if sub.expireAt > now ∧ sub.status = .active then
          (sub.startAt, calcExpireTime addDate sub.expireAt plan.periodUnit plan.periodCount)
        else
          (now, calcExpireTime addDate now plan.periodUnit plan.periodCount)
      .ok (subs.map fun s =>
        if s.id = sub.id then
          { s with planId := planId, lastOrderId := orderId,
                   startAt := se.1, expireAt := se.2, status := .active }
        else s)

/-! ## HandleNotify (subscription service) -/

/-- json.Marshal of a Go string map: keys sorted ascending.  String escaping
is elided; the callback fields involved contain no characters that MD5 or
the audit trail would escape differently. -/
def jsonOfParams (params : Params) : String :=
  let keys := sortStrings (params.map Prod.fst).dedup
  "\x7b" ++ String.intercalate ","
    (keys.map fun k => "\"" ++ k ++ "\":\"" ++ pget params k ++ "\"") ++ "\x7d"

/-- The order update applied by a successful notify. -/
def applyNotifyPaid (tradeNo payload : String) (now : Int) (o : Order) : Order :=
  { o with tradeNo := tradeNo, status := .paid, paidAt := now,
           notifyPayload := payload }

/-- The transaction body of HandleNotify: row-locked order lookup,
idempotency checks, strict amount comparison in minor units, order update
and subscription renewal.  An error aborts (rolls back) the transaction. -/
def handleNotifyTx (addDate : Int → Int → Int → Int → Int) (st : DBState)
    (params : Params) (outTradeNo tradeNo money : String) (now : Int)
    (newSubId : Nat) : Except String DBState :=
  match findOrderByOutTradeNo st.orders outTradeNo with
  | none => .error "OrderNotFound"
  | some order =>
    if order.status = .paid ∨ order.status = .refunded then .ok st
    else if order.status = .closed then .ok st
    else
      match YuanToFen money with
      | .error _ => .error "InvalidMoney"
      | .ok moneyFen =>
        if moneyFen ≠ order.amount then .error "AmountMismatch"
        else
          let payload := jsonOfParams params
          let orders' := st.orders.map fun o =>
            if o.id = order.id then applyNotifyPaid tradeNo payload now o else o
          match activateOrExtendSubscription addDate st.plans st.subs
              order.userId order.planId order.id now newSubId with
          | .error e => .error e
          | .ok subs' => .ok { st with orders := orders', subs := subs' }

/-- HandleNotify: signature check, required fields, merchant id check,
success sentinel, then the transaction; a transaction error leaves the state
unchanged (rollback) and is reported. -/
def HandleNotify (md5hex : String → String) (addDate : Int → Int → Int → Int → Int)
    (cfg : PaymentConfig) (st : DBState) (params : Params) (now : Int)
    (newSubId : Nat) : DBState × Option String :=
  let outTradeNo := pget params "out_trade_no"
  let tradeNo := pget params "trade_no"
  let money := pget params "money"
  let pid := pget params "pid"
  if ¬ Verify md5hex cfg params then (st, some "SignVerifyFailed")
  else if outTradeNo = "" ∨ tradeNo = "" ∨ money = "" then (st, some "ParamsError")
  else if pid ≠ "" ∧ pid ≠ cfg.pid then (st, some "PidMismatch")
  else if pget params "trade_status" ≠ "TRADE_SUCCESS" then (st, none)
  else
    match handleNotifyTx addDate st params outTradeNo tradeNo money now newSubId with
    | .ok st' => (st', none)
    | .error e => (st, some e)

/-! ## CreateOrder, payment submission, refund -/

/-- BuildPayURL of the payment service: the local redirect page.  The query
encoding is the identity on the alphanumeric order numbers produced by
GenerateOutTradeNo. -/
def BuildPayURL (outTradeNo : String) : String :=
  "/api/payment/submit?out_trade_no=" ++ outTradeNo

/-- strings.TrimSpace on strings. -/
def trimSpaceStr (s : String) : String :=
  (trimSpace s.toList).asString

/-- CreateOrder of the subscription service.  `newOutTradeNo` models the
generated order number, `newOrderId` and `newSubId` the primary keys gorm
assigns on insert.  Free plans create a paid order and activate inside one
transaction; paid plans reuse the latest pending order of the same user and
plan (gorm `Order("id DESC").First`, the last match in insertion order)
before inserting a fresh pending row. -/
def CreateOrder (addDate : Int → Int → Int → Int → Int) (st : DBState)
    (userId planId : Nat) (newOutTradeNo : String) (newOrderId newSubId : Nat)
    (now : Int) : DBState × Except String (String × String) :=
  match findPlan st.plans planId with
  | none => (st, .error "PlanNotFound")
  | some plan =>
    if plan.status ≠ COMMON_STATUS_ENABLE then (st, .error "PlanDisabled")
    else if plan.price = 0 then
      let order : Order :=
        { id := newOrderId, userId := userId, planId := planId,
          outTradeNo := newOutTradeNo, tradeNo := "", subject := plan.name,
          amount := plan.price, amountYuan := FenToYuan plan.price,
          status := .paid, paySubmitAt := 0, paidAt := now, refundedAt := 0,
          notifyPayload := "", createdAt := now }
      match activateOrExtendSubscription addDate st.plans st.subs
          userId planId newOrderId now newSubId with
      | .error e => (st, .error e)
      | .ok subs' =>
        ({ st with orders := st.orders ++ [order], subs := subs' },
         .ok (newOutTradeNo, ""))
    else
      match st.orders.reverse.find? (fun o =>
          o.userId == userId && o.planId == planId && o.status == OrderStatus.pending) with
      | some existing => (st, .ok (existing.outTradeNo, BuildPayURL existing.outTradeNo))
      | none =>
        let order : Order :=
          { id := newOrderId, userId := userId, planId := planId,
            outTradeNo := newOutTradeNo, tradeNo := "", subject := plan.name,
            amount := plan.price, amountYuan := FenToYuan plan.price,
            status := .pending, paySubmitAt := 0, paidAt := 0, refundedAt := 0,
            notifyPayload := "", createdAt := now }
        ({ st with orders := st.orders ++ [order] },
         .ok (newOutTradeNo, BuildPayURL newOutTradeNo))

/-- Debounce window of the submission step, seconds. -/
def submitDebounceSeconds : Int := 3

/-- Staleness threshold of the submission step: 30 minutes in seconds. -/
def pendingOrderStaleAfter : Int := 1800

/-- The transaction of the payment submission step (api controller
Payment.Submit): row-locked lookup, no-op on wrong state, debounce, and on
resubmission or staleness the closing of every pending order of the same
user and plan followed by a fresh pending order under a new number.
Returns the new state, the order the caller proceeds with (none when the
lookup failed) and the blocked flag. -/
def PaymentSubmit (st : DBState) (outTradeNo : String) (now : Int)
    (newOutTradeNo : String) (newOrderId : Nat) :
    DBState × Option Order × Bool :=
  match findOrderByOutTradeNo st.orders outTradeNo with
  | none => (st, none, false)
  | some cur =>
    if cur.status ≠ .pending ∨ cur.amount ≤ 0 ∨ trimSpaceStr cur.amountYuan = "" then
      (st, some cur, false)
    else if cur.paySubmitAt > 0 ∧ now - cur.paySubmitAt < submitDebounceSeconds then
      (st, some cur, true)
    else
      let isStale := cur.createdAt ≠ 0 ∧ now - cur.createdAt > pendingOrderStaleAfter
      if cur.paySubmitAt > 0 ∨ isStale then
        let closed := st.orders.map fun o =>
          if o.userId = cur.userId ∧ o.planId = cur.planId ∧ o.status = .pending then
            { o with status := .closed }
          else o
        let newOrder : Order :=
          { id := newOrderId, userId := cur.userId, planId := cur.planId,
            outTradeNo := newOutTradeNo, tradeNo := "", subject := cur.subject,
            amount := cur.amount, amountYuan := cur.amountYuan,
            status := .pending, paySubmitAt := now, paidAt := 0,
            refundedAt := 0, notifyPayload := "", createdAt := now }
        ({ st with orders := closed ++ [newOrder] }, some newOrder, false)
      else
        let orders' := st.orders.map fun o =>
          if o.id = cur.id then { o with paySubmitAt := now } else o
        ({ st with orders := orders' }, some { cur with paySubmitAt := now }, false)

/-- RefundOrder of the subscription service.  The external gateway refund
call is modelled by its boolean outcome `gatewayOk`; gateway failure aborts
with no local change.  On success the order is marked refunded and the
subscription of the user canceled. -/
def RefundOrder (st : DBState) (orderId : Nat) (gatewayOk : Bool) (now : Int) :
    DBState × Option String :=
  match findOrderById st.orders orderId with
  | none => (st, some "OrderNotFound")
  | some order =>
    if order.status ≠ .paid then (st, some "OrderNotPaid")
    else if order.tradeNo = "" then (st, some "TradeNoEmpty")
    else if ¬ gatewayOk then (st, some "RefundFailed")
    else
      let orders' := st.orders.map fun o =>
        if o.id = order.id then { o with status := .refunded, refundedAt := now } else o
      let subs' := st.subs.map fun s =>
        if s.userId = order.userId then { s with status := .canceled } else s
      ({ st with orders := orders', subs := subs' }, none)

/-- IsSubscriptionActive: the single premium gate predicate. -/
def IsSubscriptionActive (subs : List Subscription) (userId : Nat) (now : Int) : Bool :=
  match findSub subs userId with
  | none => false
  | some sub => decide (sub.status = .active) && decide (sub.expireAt > now)

/-! ## Status machine vocabulary for the transition claims -/

/-- The transitions the specification allows: stay put, pending to paid,
pending to closed, paid to refunded. -/
def allowedTransition (s t : OrderStatus) : Prop :=
  s = t ∨ (s = .pending ∧ t = .paid) ∨ (s = .pending ∧ t = .closed) ∨
    (s = .paid ∧ t = .refunded)

instance (s t : OrderStatus) : Decidable (allowedTransition s t) := by
  unfold allowedTransition
  infer_instance

/-- Every order present before and after an operation changed status only
along an allowed transition (orders are matched by primary key). -/
def orderStepOk (before after : List Order) : Prop :=
  ∀ o ∈ before, ∀ o' ∈ after, o'.id = o.id → allowedTransition o.status o'.status

instance (l l' : List Order) : Decidable (orderStepOk l l') := by
  unfold orderStepOk
  infer_instance

/-! ## Money codec lemmas -/

theorem digitChar_spec (m : Nat) :
    digitChar m ≠ '+' ∧ digitChar m ≠ '-' ∧ digitChar m ≠ '.' ∧
      goIsSpace (digitChar m) = false ∧
      (decide ('0' ≤ digitChar m) && decide (digitChar m ≤ '9')) = true := by
  unfold digitChar
  split <;> decide

theorem toNat_digitChar (m : Nat) (h : m < 10) : (digitChar m).toNat = 48 + m := by
  unfold digitChar
  split <;> first
    | decide
    | (rename_i h0 h1 h2 h3 h4 h5 h6 h7 h8
       simp only [imp_false] at h0 h1 h2 h3 h4 h5 h6 h7 h8
       have hm : m = 9 := by omega
       subst hm
       decide)

theorem natDigitsAux_congr (f1 : Nat) :
    ∀ f2 n, n < f1 → n < f2 → natDigitsAux f1 n = natDigitsAux f2 n := by
  induction f1 with
  | zero => omega
  | succ f ih =>
    intro f2 n h1 h2
    cases f2 with
    | zero => omega
    | succ f2' =>
      simp only [natDigitsAux]
      by_cases h10 : n < 10
      · simp [h10]
      · simp only [h10, if_false]
        rw [ih f2' (n / 10) (by omega) (by omega)]

theorem natDigits_eq (n : Nat) :
    natDigits n = if n < 10 then [digitChar n]
      else natDigits (n / 10) ++ [digitChar (n % 10)] := by
  unfold natDigits
  conv_lhs => rw [natDigitsAux]
  by_cases h10 : n < 10
  · simp [h10]
  · simp only [h10, if_false]
    rw [natDigitsAux_congr n (n / 10 + 1) (n / 10) (by omega) (by omega)]

theorem natDigits_ne_nil (n : Nat) : natDigits n ≠ [] := by
  rw [natDigits_eq]
  split <;> simp

theorem natDigits_chars (P : Char → Prop) (hP : ∀ m, P (digitChar m)) :
    ∀ n, ∀ c ∈ natDigits n, P c := by
  intro n
  induction n using Nat.strong_induction_on with
  | _ n ih =>
    intro c hc
    rw [natDigits_eq] at hc
    by_cases h10 : n < 10
    · simp only [h10, if_true, List.mem_singleton] at hc
      exact hc ▸ hP n
    · simp only [h10, if_false, List.mem_append, List.mem_singleton] at hc
      rcases hc with hc | hc
      · exact ih (n / 10) (by omega) c hc
      · exact hc ▸ hP (n % 10)

theorem parseDigits_append_singleton (l : List Char) (c : Char) :
    parseDigits (l ++ [c]) = parseDigits l * 10 + (c.toNat - 48) := by
  simp [parseDigits, List.foldl_append]

theorem parseDigits_natDigits (n : Nat) : parseDigits (natDigits n) = n := by
  induction n using Nat.strong_induction_on with
  | _ n ih =>
    rw [natDigits_eq]
    by_cases h10 : n < 10
    · simp only [h10, if_true]
      show 0 * 10 + ((digitChar n).toNat - 48) = n
      rw [toNat_digitChar n h10]
      omega
    · simp only [h10, if_false]
      rw [parseDigits_append_singleton, ih (n / 10) (by omega),
        toNat_digitChar (n % 10) (by omega)]
      omega

theorem parseDigits_pad2 (r : Nat) (h : r < 100) : parseDigits (pad2 r) = r := by
  show (0 * 10 + ((digitChar (r / 10)).toNat - 48)) * 10 + ((digitChar (r % 10)).toNat - 48) = r
  rw [toNat_digitChar (r / 10) (by omega), toNat_digitChar (r % 10) (by omega)]
  omega

theorem dropWhile_eq_self_of_false {p : Char → Bool} {l : List Char}
    (h : ∀ c ∈ l, p c = false) : l.dropWhile p = l := by
  cases l with
  | nil => rfl
  | cons c t => simp [List.dropWhile_cons, h c (by simp)]

theorem trimSpace_eq_self {l : List Char} (h : ∀ c ∈ l, goIsSpace c = false) :
    trimSpace l = l := by
  unfold trimSpace
  rw [dropWhile_eq_self_of_false h,
    dropWhile_eq_self_of_false (fun c hc => h c (List.mem_reverse.mp hc)),
    List.reverse_reverse]

theorem splitDots_no_dot {l : List Char} (h : ∀ c ∈ l, c ≠ '.') :
    splitDots l = [l] := by
  induction l with
  | nil => rfl
  | cons c t ih =>
    simp only [splitDots, h c (by simp), if_false]
    rw [ih (fun x hx => h x (by simp [hx]))]

theorem splitDots_append {a : List Char} (b : List Char)
    (h : ∀ c ∈ a, c ≠ '.') :
    splitDots (a ++ '.' :: b) = a :: splitDots b := by
  induction a with
  | nil => simp [splitDots]
  | cons c t ih =>
    simp only [List.cons_append, splitDots, h c (by simp), if_false, List.append_eq]
    rw [ih (fun x hx => h x (by simp [hx]))]

/-- C6 (amended): for every nonnegative minor-unit value n in the int64
range, YuanToFen (FenToYuan n) parses back to exactly n, FenToYuan printing
exactly two fractional digits.  The original claim over all representable
(including negative) n fails, see the counterexample. -/
theorem c6_money_roundtrip (n : Int) (h0 : 0 ≤ n) (h1 : n ≤ maxInt64) :
    YuanToFen (FenToYuan n) = .ok n := by
  have ha : ((n.natAbs : Nat) : Int) = n := Int.natAbs_of_nonneg h0
  set a : Nat := n.natAbs with hadef
  set q : Nat := a / 100 with hqdef
  set r : Nat := a % 100 with hrdef
  have hq : parseDigits (natDigits q) = q := parseDigits_natDigits q
  have hr : parseDigits (pad2 r) = r := parseDigits_pad2 r (by omega)
  have hdq : ∀ c ∈ natDigits q, c ≠ '+' ∧ c ≠ '-' ∧ c ≠ '.' ∧ goIsSpace c = false ∧
      (decide ('0' ≤ c) && decide (c ≤ '9')) = true :=
    natDigits_chars _ digitChar_spec q
  have hdf : ∀ c ∈ pad2 r, c ≠ '+' ∧ c ≠ '-' ∧ c ≠ '.' ∧ goIsSpace c = false ∧
      (decide ('0' ≤ c) && decide (c ≤ '9')) = true := by
    intro c hc
    simp only [pad2, List.mem_cons, List.not_mem_nil, or_false] at hc
    rcases hc with rfl | rfl
    · exact digitChar_spec _
    · exact digitChar_spec _
  have hfe : FenToYuan n = (natDigits q ++ '.' :: pad2 r).asString := by
    unfold FenToYuan
    dsimp only []
    rw [if_neg (by omega : ¬ n < 0), ← hadef, ← hqdef, ← hrdef]
    simp
  rw [hfe]
  obtain ⟨c, t, hct⟩ := List.exists_cons_of_ne_nil (natDigits_ne_nil q)
  rw [hct] at hq hdq ⊢
  have hsp : ∀ x ∈ c :: t ++ '.' :: pad2 r, goIsSpace x = false := by
    intro x hx
    rcases List.mem_append.mp hx with hx | hx
    · exact (hdq x hx).2.2.2.1
    · rcases List.mem_cons.mp hx with rfl | hx
      · decide
      · exact (hdf x hx).2.2.2.1
  unfold YuanToFen
  rw [show (((c :: t) ++ '.' :: pad2 r).asString).toList = (c :: t) ++ '.' :: pad2 r from rfl]
  rw [trimSpace_eq_self hsp]
  rw [if_neg (by simp)]
  have hm1 : (match c :: t ++ '.' :: pad2 r with
      | '+' :: rest => rest
      | other => other) = c :: t ++ '.' :: pad2 r := by
    split
    · rename_i rest heq
      injection heq with hh _
      exact absurd hh ((hdq c (by simp)).1)
    · rfl
  rw [hm1]
  dsimp only []
  split
  · rename_i tail heq
    injection heq with hh _
    exact absurd hh ((hdq c (by simp)).2.1)
  · rename_i s1 hs1
    have hdots : ∀ x ∈ c :: t, x ≠ '.' := fun x hx => (hdq x hx).2.2.1
    have hfdots : ∀ x ∈ pad2 r, x ≠ '.' := fun x hx => (hdf x hx).2.2.1
    rw [splitDots_append (pad2 r) hdots, splitDots_no_dot hfdots]
    rw [if_neg (by simp)]
    simp only [List.drop_succ_cons, List.drop_zero, List.headD_cons]
    rw [show (pad2 r).length = 2 from rfl]
    dsimp only []
    have haq : isAllDigits (c :: t) = true :=
      List.all_eq_true.mpr (fun x hx => (hdq x hx).2.2.2.2)
    have haf : isAllDigits (pad2 r) = true :=
      List.all_eq_true.mpr (fun x hx => (hdf x hx).2.2.2.2)
    rw [if_neg (by simp : ¬ (c :: t = []))]
    rw [if_neg (by simp [haq, haf])]
    rw [hq, hr]
    have h100 : 100 * q + r = a := Nat.div_add_mod a 100
    have hM : n ≤ 9223372036854775807 := by
      simpa [maxInt64] using h1
    simp only [maxInt64]
    rw [if_neg (by omega)]
    rw [if_neg (by omega)]
    rw [if_neg (by omega)]
    congr 1
    omega

/-- C6 counterexample: the claimed round-trip fails at the representable
minor-unit value -1: FenToYuan preserves the sign, but YuanToFen rejects
every negative decimal string. -/
theorem c6_money_roundtrip_counterexample :
    FenToYuan (-1) = "-0.01" ∧
      YuanToFen (FenToYuan (-1)) = .error "invalid money: negative" ∧
      YuanToFen (FenToYuan (-1)) ≠ .ok (-1) := by
  refine ⟨rfl, rfl, fun h => ?_⟩
  rw [show YuanToFen (FenToYuan (-1)) = .error "invalid money: negative" from rfl] at h
  exact Except.noConfusion h

/-- Witness for C6 at n = 1234: FenToYuan yields "12.34" and YuanToFen
parses it back. -/
theorem c6_money_roundtrip_witness :
    (0 : Int) ≤ 1234 ∧ (1234 : Int) ≤ maxInt64 ∧
      YuanToFen (FenToYuan 1234) = .ok 1234 :=
  ⟨by decide, by decide, c6_money_roundtrip 1234 (by decide) (by decide)⟩

/-! ## Relay whitelist lemmas -/

theorem wLookup_wErase_self (m : WhitelistMap) (uuid : String) :
    wLookup (wErase m uuid) uuid = none := by
  unfold wLookup wErase
  induction m with
  | nil => rfl
  | cons p t ih =>
    by_cases h : p.1 = uuid
    · have hb : (p.1 == uuid) = true := by simp [h]
      simp only [List.filter_cons, hb, Bool.not_true, if_false]
      exact ih
    · have hb : (p.1 == uuid) = false := by simp [h]
      simp only [List.filter_cons, hb, Bool.not_false, if_true, List.find?_cons]
      exact ih

theorem wLookup_wErase_ne (m : WhitelistMap) (uuid k : String) (h : k ≠ uuid) :
    wLookup (wErase m uuid) k = wLookup m k := by
  unfold wLookup wErase
  induction m with
  | nil => rfl
  | cons p t ih =>
    by_cases hp : p.1 = uuid
    · have hb : (p.1 == uuid) = true := by simp [hp]
      have hbk : (p.1 == k) = false := by
        simp only [beq_eq_false_iff_ne, ne_eq, hp]
        exact fun e => h e.symm
      simp only [List.filter_cons, hb, Bool.not_true, if_false, List.find?_cons, hbk]
      exact ih
    · have hb : (p.1 == uuid) = false := by simp [hp]
      by_cases hk : p.1 = k
      · have hbk : (p.1 == k) = true := by simp [hk]
        simp only [List.filter_cons, hb, Bool.not_false, if_true, List.find?_cons, hbk]
      · have hbk : (p.1 == k) = false := by simp [hk]
        simp only [List.filter_cons, hb, Bool.not_false, if_true, List.find?_cons, hbk]
        exact ih

theorem wLookup_wInsert_self (m : WhitelistMap) (uuid : String) (item : WhitelistItem) :
    wLookup (wInsert m uuid item) uuid = some item := by
  simp [wLookup, wInsert, List.find?_cons]

theorem wLookup_wInsert_ne (m : WhitelistMap) (uuid k : String) (item : WhitelistItem)
    (h : k ≠ uuid) : wLookup (wInsert m uuid item) k = wLookup m k := by
  have hb : (uuid == k) = false := by
    simp only [beq_eq_false_iff_ne, ne_eq]
    exact fun e => h e.symm
  rw [show wLookup (wInsert m uuid item) k = wLookup (wErase m uuid) k from by
    simp [wLookup, wInsert, List.find?_cons, hb]]
  exact wLookup_wErase_ne m uuid k h

/-- C7: after Allow("x", 2, 60) the first two Consume("x") calls made
within the TTL window return true, the second one deleting the entry as the
slot count reaches zero, so a third Consume returns false; and any entry
whose TTL has elapsed is deleted by Consume with result false regardless of
remaining slots. -/
theorem c7_whitelist_consumption (m : WhitelistMap) (t0 t1 t2 t3 : Int)
    (h1 : ¬ t1 > t0 + 60) (h2 : ¬ t2 > t0 + 60) :
    (Consume (Allow m "x" 2 60 t0) "x" t1).2 = true ∧
    (Consume (Consume (Allow m "x" 2 60 t0) "x" t1).1 "x" t2).2 = true ∧
    wLookup (Consume (Consume (Allow m "x" 2 60 t0) "x" t1).1 "x" t2).1 "x" = none ∧
    (Consume (Consume (Consume (Allow m "x" 2 60 t0) "x" t1).1 "x" t2).1 "x" t3).2 = false ∧
    (∀ (m' : WhitelistMap) (uuid : String) (now : Int) (item : WhitelistItem),
      wLookup m' uuid = some item → now > item.expireAt →
      Consume m' uuid now = (wErase m' uuid, false)) := by
  have hA : Allow m "x" 2 60 t0 = wInsert m "x" { slots := 2, expireAt := t0 + 60 } := by
    simp [Allow]
  have hC1 : Consume (wInsert m "x" { slots := 2, expireAt := t0 + 60 }) "x" t1 =
      (wInsert (wInsert m "x" { slots := 2, expireAt := t0 + 60 }) "x"
        { slots := 1, expireAt := t0 + 60 }, true) := by
    simp [Consume, wLookup_wInsert_self, h1]
  have hC2 : Consume (wInsert (wInsert m "x" { slots := 2, expireAt := t0 + 60 }) "x"
        { slots := 1, expireAt := t0 + 60 }) "x" t2 =
      (wErase (wInsert (wInsert m "x" { slots := 2, expireAt := t0 + 60 }) "x"
        { slots := 1, expireAt := t0 + 60 }) "x", true) := by
    simp [Consume, wLookup_wInsert_self, h2]
  have hL2 : wLookup (wErase (wInsert (wInsert m "x" { slots := 2, expireAt := t0 + 60 }) "x"
      { slots := 1, expireAt := t0 + 60 }) "x") "x" = none :=
    wLookup_wErase_self _ _
  refine ⟨?_, ?_, ?_, ?_, ?_⟩
  · rw [hA, hC1]
  · rw [hA, hC1, hC2]
  · rw [hA, hC1, hC2]
    exact hL2
  · rw [hA, hC1, hC2]
    simp [Consume, hL2]
  · intro m' uuid now item hl hgt
    simp [Consume, hl, hgt]

/-- Witness for C7 with the empty initial map, allow at time 0 and consumes
at times 10, 20, 30, plus the expiry clause at a concrete expired entry. -/
theorem c7_whitelist_consumption_witness :
    ((¬ (10 : Int) > 0 + 60) ∧ (¬ (20 : Int) > 0 + 60)) ∧
    (Consume (Allow [] "x" 2 60 0) "x" 10).2 = true ∧
    (Consume (Consume (Allow [] "x" 2 60 0) "x" 10).1 "x" 20).2 = true ∧
    wLookup (Consume (Consume (Allow [] "x" 2 60 0) "x" 10).1 "x" 20).1 "x" = none ∧
    (Consume (Consume (Consume (Allow [] "x" 2 60 0) "x" 10).1 "x" 20).1 "x" 30).2 = false := by
  have h := c7_whitelist_consumption [] 0 10 20 30 (by decide) (by decide)
  exact ⟨⟨by decide, by decide⟩, h.1, h.2.1, h.2.2.1, h.2.2.2.1⟩

/-- C9: the admission path clamps slots to 2 when non-positive and to the
maximum 10 otherwise, clamps ttl to 120 when non-positive and to the
maximum 300 otherwise, and unconditionally replaces any existing entry for
the uuid with the fresh slot count and expiry, leaving other keys
untouched. -/
theorem c9_relay_allow_clamps (m : WhitelistMap) (uuid : String)
    (slots ttlSec now : Int) (hne : uuid ≠ "") (hlen : uuid.length ≤ MaxUUIDLength) :
    RelayAllow m uuid slots ttlSec now =
      .ok (wInsert m uuid
            { slots := if slots ≤ 0 then 2 else min slots MaxSlots,
              expireAt := now + (if ttlSec ≤ 0 then 120 else min ttlSec MaxTTLSec) },
           (if slots ≤ 0 then 2 else min slots MaxSlots),
           (if ttlSec ≤ 0 then 120 else min ttlSec MaxTTLSec)) ∧
    wLookup (wInsert m uuid
            { slots := if slots ≤ 0 then 2 else min slots MaxSlots,
              expireAt := now + (if ttlSec ≤ 0 then 120 else min ttlSec MaxTTLSec) }) uuid =
      some { slots := if slots ≤ 0 then 2 else min slots MaxSlots,
             expireAt := now + (if ttlSec ≤ 0 then 120 else min ttlSec MaxTTLSec) } ∧
    (∀ k, k ≠ uuid →
      wLookup (wInsert m uuid
            { slots := if slots ≤ 0 then 2 else min slots MaxSlots,
              expireAt := now + (if ttlSec ≤ 0 then 120 else min ttlSec MaxTTLSec) }) k =
        wLookup m k) := by
  refine ⟨?_, wLookup_wInsert_self _ _ _, fun k hk => wLookup_wInsert_ne _ _ _ _ hk⟩
  unfold RelayAllow Allow
  rw [if_neg hne, if_neg (by omega : ¬ uuid.length > MaxUUIDLength)]
  simp only [MaxSlots, MaxTTLSec, min_def]
  split_ifs <;> first | rfl | omega

/-- Witness for C9: a previous entry for "x" is replaced, slots 15 are
capped to 10 and ttl 1000 to 300. -/
theorem c9_relay_allow_clamps_witness :
    RelayAllow [("x", { slots := 1, expireAt := 7 })] "x" 15 1000 5 =
      .ok (wInsert [("x", { slots := 1, expireAt := 7 })] "x"
            { slots := if (15 : Int) ≤ 0 then 2 else min 15 MaxSlots,
              expireAt := 5 + (if (1000 : Int) ≤ 0 then 120 else min 1000 MaxTTLSec) },
           (if (15 : Int) ≤ 0 then 2 else min 15 MaxSlots),
           (if (1000 : Int) ≤ 0 then 120 else min 1000 MaxTTLSec)) :=
  (c9_relay_allow_clamps [("x", { slots := 1, expireAt := 7 })] "x" 15 1000 5
    (by decide) (by decide)).1

/-- C10: in every state reachable by Allow, Consume and cleanup sweeps,
every stored entry has at least one remaining slot: a zero-slot entry is
never observable. -/
theorem c10_whitelist_slots_positive (m : WhitelistMap) (h : WReachable m) :
    ∀ p ∈ m, 1 ≤ p.2.slots := by
  induction h with
  | empty =>
    intro p hp
    cases hp
  | allow m uuid slots ttlSec now hr ih =>
    intro p hp
    simp only [Allow, wInsert] at hp
    rcases List.mem_cons.mp hp with rfl | hp
    · simp only []
      split_ifs <;> omega
    · exact ih p (List.mem_of_mem_filter hp)
  | consume m uuid now hr ih =>
    intro p hp
    rcases hw : wLookup m uuid with _ | item
    · rw [Consume] at hp
      rw [hw] at hp
      exact ih p hp
    · rw [Consume] at hp
      rw [hw] at hp
      dsimp only [] at hp
      by_cases hex : now > item.expireAt
      · rw [if_pos hex] at hp
        exact ih p (List.mem_of_mem_filter hp)
      · rw [if_neg hex] at hp
        by_cases hs0 : item.slots ≤ 0
        · rw [if_pos hs0] at hp
          exact ih p (List.mem_of_mem_filter hp)
        · rw [if_neg hs0] at hp
          by_cases hz : item.slots - 1 ≤ 0
          · rw [if_pos hz] at hp
            exact ih p (List.mem_of_mem_filter hp)
          · rw [if_neg hz] at hp
            rcases List.mem_cons.mp hp with rfl | hp
            · simp only []
              omega
            · exact ih p (List.mem_of_mem_filter hp)
  | sweep m now hr ih =>
    intro p hp
    exact ih p (List.mem_of_mem_filter hp)

/-- Witness for C10 at the state reached by a single Allow with defaulted
slots: the stored entry has 2 slots. -/
theorem c10_whitelist_slots_positive_witness :
    ("demo", ({ slots := 2, expireAt := 120 } : WhitelistItem)) ∈ Allow [] "demo" 0 0 0 ∧
      1 ≤ (("demo", ({ slots := 2, expireAt := 120 } : WhitelistItem))).2.slots := by
  refine ⟨by decide, ?_⟩
  exact c10_whitelist_slots_positive (Allow [] "demo" 0 0 0)
    (WReachable.allow [] "demo" 0 0 0 WReachable.empty)
    ("demo", { slots := 2, expireAt := 120 }) (by decide)

/-! ## Signature engine lemmas -/

theorem pget_cons_of_eq (x : String × String) (t : Params) (k : String)
    (h : x.1 = k) : pget (x :: t) k = x.2 := by
  have hb : (x.1 == k) = true := by simp [h]
  simp [pget, List.find?_cons, hb]

theorem pget_cons_of_ne (x : String × String) (t : Params) (k : String)
    (h : x.1 ≠ k) : pget (x :: t) k = pget t k := by
  have hb : (x.1 == k) = false := by simp [h]
  simp [pget, List.find?_cons, hb]

theorem pget_eq_of_perm (l1 l2 : Params) (h : l1.Perm l2)
    (hnd : (l1.map Prod.fst).Nodup) (k : String) : pget l1 k = pget l2 k := by
  induction h with
  | nil => rfl
  | cons x h ih =>
    simp only [List.map_cons, List.nodup_cons] at hnd
    by_cases hx : x.1 = k
    · rw [pget_cons_of_eq x _ k hx, pget_cons_of_eq x _ k hx]
    · rw [pget_cons_of_ne x _ k hx, pget_cons_of_ne x _ k hx]
      exact ih hnd.2
  | swap x y l =>
    simp only [List.map_cons, List.nodup_cons, List.mem_cons] at hnd
    have hxy : y.1 ≠ x.1 := fun e => hnd.1 (Or.inl e)
    by_cases hy : y.1 = k
    · rw [pget_cons_of_eq y _ k hy, pget_cons_of_ne x _ k (fun e => hxy (hy.trans e.symm)),
        pget_cons_of_eq y _ k hy]
    · by_cases hx : x.1 = k
      · rw [pget_cons_of_ne y _ k hy, pget_cons_of_eq x _ k hx, pget_cons_of_eq x _ k hx]
      · rw [pget_cons_of_ne y _ k hy, pget_cons_of_ne x _ k hx,
          pget_cons_of_ne x _ k hx, pget_cons_of_ne y _ k hy]
  | trans h1 h2 ih1 ih2 =>
    rw [ih1 hnd, ih2 ((h1.map Prod.fst).nodup_iff.mp hnd)]

theorem insertSorted_perm (a : String) (l : List String) :
    List.Perm (insertSorted a l) (a :: l) := by
  induction l with
  | nil => exact List.Perm.refl _
  | cons t ts ih =>
    rw [insertSorted]
    split
    · exact List.Perm.refl _
    · exact List.Perm.trans (List.Perm.cons t ih) (List.Perm.swap a t ts)

theorem insertSorted_sorted (a : String) (l : List String)
    (h : l.Sorted (· ≤ ·)) : (insertSorted a l).Sorted (· ≤ ·) := by
  induction l with
  | nil => simp [insertSorted]
  | cons t ts ih =>
    rw [insertSorted]
    split
    · rename_i hle
      rw [List.sorted_cons]
      refine ⟨fun b hb => ?_, h⟩
      rcases List.mem_cons.mp hb with rfl | hb
      · exact hle
      · exact le_trans hle ((List.sorted_cons.mp h).1 b hb)
    · rename_i hgt
      rw [List.sorted_cons] at h ⊢
      refine ⟨fun b hb => ?_, ih h.2⟩
      rcases List.mem_cons.mp ((insertSorted_perm a ts).mem_iff.mp hb) with rfl | hb
      · exact le_of_not_le hgt
      · exact h.1 b hb

theorem sortStrings_sorted (l : List String) : (sortStrings l).Sorted (· ≤ ·) := by
  induction l with
  | nil => simp [sortStrings]
  | cons a t ih => exact insertSorted_sorted a _ ih

theorem sortStrings_perm (l : List String) : List.Perm (sortStrings l) l := by
  induction l with
  | nil => exact List.Perm.refl _
  | cons a t ih =>
    exact List.Perm.trans (insertSorted_perm a (sortStrings t)) (List.Perm.cons a ih)

theorem sortStrings_eq_of_perm (l1 l2 : List String) (h : List.Perm l1 l2) :
    sortStrings l1 = sortStrings l2 :=
  List.eq_of_perm_of_sorted
    ((sortStrings_perm l1).trans (h.trans (sortStrings_perm l2).symm))
    (sortStrings_sorted l1) (sortStrings_sorted l2)

/-- C8: Sign depends only on the key/value content of the parameter map,
not on its insertion or iteration order: on maps with the same pairs (a Go
map iterated in any order, keys pairwise distinct) it produces the same
signature, by construction the digest of the ASCII-ascending k=v join with
empty values and the sign and sign_type fields excluded and the secret
appended. -/
theorem c8_sign_order_invariant (md5hex : String → String) (cfg : PaymentConfig)
    (l1 l2 : Params) (hperm : l1.Perm l2) (hnd : (l1.map Prod.fst).Nodup) :
    Sign md5hex cfg l1 = Sign md5hex cfg l2 := by
  unfold Sign
  dsimp only []
  have hf : (signFiltered l1).Perm (signFiltered l2) := hperm.filter _
  have hfn : ((signFiltered l1).map Prod.fst).Nodup :=
    ((List.filter_sublist _).map Prod.fst).nodup hnd
  have hkeys : sortStrings ((signFiltered l1).map Prod.fst) =
      sortStrings ((signFiltered l2).map Prod.fst) :=
    sortStrings_eq_of_perm _ _ (hf.map _)
  rw [hkeys]
  have hmap : (sortStrings ((signFiltered l2).map Prod.fst)).map
        (fun k => k ++ "=" ++ pget (signFiltered l1) k) =
      (sortStrings ((signFiltered l2).map Prod.fst)).map
        (fun k => k ++ "=" ++ pget (signFiltered l2) k) := by
    apply List.map_congr_left
    intro k hk
    rw [pget_eq_of_perm _ _ hf hfn k]
  rw [hmap]

/-- Witness for C8: two orderings of the same three-field map sign
identically. -/
theorem c8_sign_order_invariant_witness :
    List.Perm [("money", "9.99"), ("out_trade_no", "RD1"), ("pid", "1000")]
      [("pid", "1000"), ("money", "9.99"), ("out_trade_no", "RD1")] ∧
    (List.map Prod.fst
      [("money", "9.99"), ("out_trade_no", "RD1"), ("pid", "1000")]).Nodup ∧
    Sign (fun s => s)
        { enable := true, baseURL := "", pid := "1000", key := "K",
          notifyURL := "", returnURL := "", timeout := 15 }
        [("money", "9.99"), ("out_trade_no", "RD1"), ("pid", "1000")] =
      Sign (fun s => s)
        { enable := true, baseURL := "", pid := "1000", key := "K",
          notifyURL := "", returnURL := "", timeout := 15 }
        [("pid", "1000"), ("money", "9.99"), ("out_trade_no", "RD1")] := by
  refine ⟨by decide, by decide, ?_⟩
  exact c8_sign_order_invariant (fun s => s) _ _ _ (by decide) (by decide)

/-- C4: Verify returns false (without raising) whenever the sign field is
absent or empty, and whenever verification fails HandleNotify returns the
SignVerifyFailed error with the order and subscription state untouched. -/
theorem c4_verify_fail_no_mutation :
    (∀ (md5hex : String → String) (cfg : PaymentConfig) (params : Params),
      pget params "sign" = "" → Verify md5hex cfg params = false) ∧
    (∀ (md5hex : String → String) (addDate : Int → Int → Int → Int → Int)
      (cfg : PaymentConfig) (st : DBState) (params : Params) (now : Int)
      (newSubId : Nat),
      Verify md5hex cfg params = false →
      HandleNotify md5hex addDate cfg st params now newSubId =
        (st, some "SignVerifyFailed")) := by
  constructor
  · intro md5hex cfg params h
    unfold Verify
    rw [if_pos h]
  · intro md5hex addDate cfg st params now newSubId hv
    unfold HandleNotify
    rw [if_pos (by simp [hv])]

/-- Witness for C4: a parameter map without a sign field fails verification
and HandleNotify rejects it leaving a one-order state unchanged. -/
theorem c4_verify_fail_no_mutation_witness :
    pget [("out_trade_no", "RD1")] "sign" = "" ∧
    Verify (fun s => s)
      { enable := true, baseURL := "", pid := "1000", key := "K",
        notifyURL := "", returnURL := "", timeout := 15 }
      [("out_trade_no", "RD1")] = false ∧
    HandleNotify (fun s => s) (fun b _ _ _ => b)
      { enable := true, baseURL := "", pid := "1000", key := "K",
        notifyURL := "", returnURL := "", timeout := 15 }
      { orders := [{ id := 1, userId := 1, planId := 1, outTradeNo := "RD1",
                     tradeNo := "", subject := "s", amount := 999,
                     amountYuan := "9.99", status := .pending,
                     paySubmitAt := 0, paidAt := 0, refundedAt := 0,
                     notifyPayload := "", createdAt := 0 }],
        subs := [], plans := [] }
      [("out_trade_no", "RD1")] 1700000000 7 =
      ({ orders := [{ id := 1, userId := 1, planId := 1, outTradeNo := "RD1",
                      tradeNo := "", subject := "s", amount := 999,
                      amountYuan := "9.99", status := .pending,
                      paySubmitAt := 0, paidAt := 0, refundedAt := 0,
                      notifyPayload := "", createdAt := 0 }],
         subs := [], plans := [] }, some "SignVerifyFailed") := by
  refine ⟨rfl, c4_verify_fail_no_mutation.1 _ _ _ rfl, ?_⟩
  exact c4_verify_fail_no_mutation.2 _ _ _ _ _ _ _
    (c4_verify_fail_no_mutation.1 _ _ _ rfl)

/-- C3: a validly signed successful callback whose decimal amount fails to
parse, or parses to a minor-unit value different from the stored amount of
the pending order, makes HandleNotify return an error with the entire state
unchanged: the order stays pending with all fields intact and no
subscription row is created or modified. -/
theorem c3_amount_mismatch_rejected (md5hex : String → String)
    (addDate : Int → Int → Int → Int → Int) (cfg : PaymentConfig)
    (st : DBState) (params : Params) (now : Int) (newSubId : Nat) (order : Order)
    (hv : Verify md5hex cfg params = true)
    (ho : pget params "out_trade_no" ≠ "")
    (ht : pget params "trade_no" ≠ "")
    (hm : pget params "money" ≠ "")
    (hpid : pget params "pid" = "" ∨ pget params "pid" = cfg.pid)
    (hs : pget params "trade_status" = "TRADE_SUCCESS")
    (hord : findOrderByOutTradeNo st.orders (pget params "out_trade_no") = some order)
    (hpend : order.status = .pending)
    (hmis : ∀ v, YuanToFen (pget params "money") = .ok v → v ≠ order.amount) :
    (HandleNotify md5hex addDate cfg st params now newSubId).1 = st ∧
    ((HandleNotify md5hex addDate cfg st params now newSubId).2 = some "InvalidMoney" ∨
     (HandleNotify md5hex addDate cfg st params now newSubId).2 = some "AmountMismatch") := by
  unfold HandleNotify
  dsimp only []
  rw [if_neg (by simp [hv])]
  rw [if_neg (by simp [ho, ht, hm])]
  rw [if_neg (by rcases hpid with h | h <;> simp [h])]
  rw [if_neg (by simp [hs])]
  unfold handleNotifyTx
  rw [hord]
  dsimp only []
  rw [if_neg (by simp [hpend])]
  rw [if_neg (by simp [hpend])]
  rcases hY : YuanToFen (pget params "money") with e | v
  · exact ⟨rfl, Or.inl rfl⟩
  · dsimp only []
    rw [if_pos (hmis v hY)]
    exact ⟨rfl, Or.inr rfl⟩

/-- Witness for C3: a signed successful callback carrying amount "8.88"
against a stored pending order of 999 minor units is rejected with the
state unchanged. -/
theorem c3_amount_mismatch_rejected_witness :
    (HandleNotify (fun _ => "h") (fun b _ _ _ => b)
      { enable := true, baseURL := "", pid := "1000", key := "K",
        notifyURL := "", returnURL := "", timeout := 15 }
      { orders := [{ id := 1, userId := 1, planId := 1, outTradeNo := "RD1",
                     tradeNo := "", subject := "s", amount := 999,
                     amountYuan := "9.99", status := .pending,
                     paySubmitAt := 0, paidAt := 0, refundedAt := 0,
                     notifyPayload := "", createdAt := 0 }],
        subs := [], plans := [] }
      [("out_trade_no", "RD1"), ("trade_no", "T1"), ("money", "8.88"),
       ("trade_status", "TRADE_SUCCESS"), ("sign", "h")] 1700000000 7).1 =
      { orders := [{ id := 1, userId := 1, planId := 1, outTradeNo := "RD1",
                     tradeNo := "", subject := "s", amount := 999,
                     amountYuan := "9.99", status := .pending,
                     paySubmitAt := 0, paidAt := 0, refundedAt := 0,
                     notifyPayload := "", createdAt := 0 }],
        subs := [], plans := [] } ∧
    ((HandleNotify (fun _ => "h") (fun b _ _ _ => b)
      { enable := true, baseURL := "", pid := "1000", key := "K",
        notifyURL := "", returnURL := "", timeout := 15 }
      { orders := [{ id := 1, userId := 1, planId := 1, outTradeNo := "RD1",
                     tradeNo := "", subject := "s", amount := 999,
                     amountYuan := "9.99", status := .pending,
                     paySubmitAt := 0, paidAt := 0, refundedAt := 0,
                     notifyPayload := "", createdAt := 0 }],
        subs := [], plans := [] }
      [("out_trade_no", "RD1"), ("trade_no", "T1"), ("money", "8.88"),
       ("trade_status", "TRADE_SUCCESS"), ("sign", "h")] 1700000000 7).2 =
        some "InvalidMoney" ∨
     (HandleNotify (fun _ => "h") (fun b _ _ _ => b)
      { enable := true, baseURL := "", pid := "1000", key := "K",
        notifyURL := "", returnURL := "", timeout := 15 }
      { orders := [{ id := 1, userId := 1, planId := 1, outTradeNo := "RD1",
                     tradeNo := "", subject := "s", amount := 999,
                     amountYuan := "9.99", status := .pending,
                     paySubmitAt := 0, paidAt := 0, refundedAt := 0,
                     notifyPayload := "", createdAt := 0 }],
        subs := [], plans := [] }
      [("out_trade_no", "RD1"), ("trade_no", "T1"), ("money", "8.88"),
       ("trade_status", "TRADE_SUCCESS"), ("sign", "h")] 1700000000 7).2 =
        some "AmountMismatch") := by
  apply c3_amount_mismatch_rejected
  · rfl
  · decide
  · decide
  · decide
  · left
    rfl
  · rfl
  · rfl
  · rfl
  · intro v hveq
    rw [show YuanToFen (pget [("out_trade_no", "RD1"), ("trade_no", "T1"),
      ("money", "8.88"), ("trade_status", "TRADE_SUCCESS"), ("sign", "h")]
        "money") = Except.ok 888 from rfl] at hveq
    injection hveq with h8
    rw [← h8]
    decide

/-! ## Order lifecycle lemmas -/

theorem find?_map_invariant {α : Type} (p : α → Bool) (f : α → α) (l : List α)
    (hpf : ∀ x, p (f x) = p x) : (l.map f).find? p = (l.find? p).map f := by
  induction l with
  | nil => rfl
  | cons a t ih =>
    cases hpa : p a
    · simp only [List.map_cons, List.find?_cons, hpf a, hpa, ih]
    · simp only [List.map_cons, List.find?_cons, hpf a, hpa]
      rfl

theorem find?_append_none {α : Type} (p : α → Bool) (l1 l2 : List α)
    (h : l1.find? p = none) : (l1 ++ l2).find? p = l2.find? p := by
  induction l1 with
  | nil => rfl
  | cons a t ih =>
    rw [List.find?_cons] at h
    cases hpa : p a
    · rw [hpa] at h
      simp only [List.cons_append, List.find?_cons, hpa]
      exact ih h
    · rw [hpa] at h
      cases h

/-- C5: the renewal step keeps the start and stacks the expiry on top of the
old one when the existing subscription is active with expiry strictly in
the future; otherwise (missing, expired or inactive) it restarts from now;
in every case the stored row ends up active. -/
theorem c5_renewal_semantics (addDate : Int → Int → Int → Int → Int)
    (plans : List Plan) (subs : List Subscription)
    (userId planId orderId : Nat) (now : Int) (newSubId : Nat) (plan : Plan)
    (hplan : findPlan plans planId = some plan) :
    (findSub subs userId = none →
      activateOrExtendSubscription addDate plans subs userId planId orderId now newSubId =
        .ok (subs ++ [{ id := newSubId, userId := userId, planId := planId,
                        lastOrderId := orderId, startAt := now,
                        expireAt := calcExpireTime addDate now plan.periodUnit plan.periodCount,
                        status := .active }]) ∧
      findSub (subs ++ [{ id := newSubId, userId := userId, planId := planId,
                          lastOrderId := orderId, startAt := now,
                          expireAt := calcExpireTime addDate now plan.periodUnit plan.periodCount,
                          status := .active }]) userId =
        some { id := newSubId, userId := userId, planId := planId,
               lastOrderId := orderId, startAt := now,
               expireAt := calcExpireTime addDate now plan.periodUnit plan.periodCount,
               status := .active }) ∧
    (∀ sub, findSub subs userId = some sub → sub.status = .active → sub.expireAt > now →
      activateOrExtendSubscription addDate plans subs userId planId orderId now newSubId =
        .ok (subs.map fun s => if s.id = sub.id then
              { s with planId := planId, lastOrderId := orderId,
                       startAt := sub.startAt,
                       expireAt := calcExpireTime addDate sub.expireAt plan.periodUnit plan.periodCount,
                       status := .active } else s) ∧
      findSub (subs.map fun s => if s.id = sub.id then
                { s with planId := planId, lastOrderId := orderId,
                         startAt := sub.startAt,
                         expireAt := calcExpireTime addDate sub.expireAt plan.periodUnit plan.periodCount,
                         status := .active } else s) userId =
        some { sub with planId := planId, lastOrderId := orderId,
                        startAt := sub.startAt,
                        expireAt := calcExpireTime addDate sub.expireAt plan.periodUnit plan.periodCount,
                        status := .active }) ∧
    (∀ sub, findSub subs userId = some sub → ¬ (sub.expireAt > now ∧ sub.status = .active) →
      activateOrExtendSubscription addDate plans subs userId planId orderId now newSubId =
        .ok (subs.map fun s => if s.id = sub.id then
              { s with planId := planId, lastOrderId := orderId,
                       startAt := now,
                       expireAt := calcExpireTime addDate now plan.periodUnit plan.periodCount,
                       status := .active } else s) ∧
      findSub (subs.map fun s => if s.id = sub.id then
                { s with planId := planId, lastOrderId := orderId,
                         startAt := now,
                         expireAt := calcExpireTime addDate now plan.periodUnit plan.periodCount,
                         status := .active } else s) userId =
        some { sub with planId := planId, lastOrderId := orderId,
                        startAt := now,
                        expireAt := calcExpireTime addDate now plan.periodUnit plan.periodCount,
                        status := .active }) := by
  refine ⟨?_, ?_, ?_⟩
  · intro hnone
    constructor
    · unfold activateOrExtendSubscription
      rw [hplan, hnone]
    · unfold findSub at hnone ⊢
      rw [find?_append_none _ _ _ hnone]
      simp [List.find?_cons]
  · intro sub hsub hact hexp
    constructor
    · unfold activateOrExtendSubscription
      rw [hplan, hsub]
      dsimp only []
      rw [if_pos ⟨hexp, hact⟩]
    · unfold findSub at hsub ⊢
      rw [find?_map_invariant _ _ _ (by
        intro x
        by_cases hx : x.id = sub.id <;> simp [hx]), hsub]
      simp only [Option.map_some']
      simp
  · intro sub hsub hnot
    constructor
    · unfold activateOrExtendSubscription
      rw [hplan, hsub]
      dsimp only []
      rw [if_neg hnot]
    · unfold findSub at hsub ⊢
      rw [find?_map_invariant _ _ _ (by
        intro x
        by_cases hx : x.id = sub.id <;> simp [hx]), hsub]
      simp only [Option.map_some']
      simp

/-- Witness for C5 on the fresh-activation branch: no existing
subscription, a monthly plan, concrete calendar primitive; the created row
starts now, expires one period later and is active. -/
theorem c5_renewal_semantics_witness :
    activateOrExtendSubscription
      (fun b y m d => b + 31536000 * y + 2592000 * m + 86400 * d)
      [{ id := 1, code := "m", name := "Monthly", price := 999,
         periodUnit := "month", periodCount := 1, status := 1, sortOrder := 0 }]
      [] 1 1 5 1000 9 =
      .ok [{ id := 9, userId := 1, planId := 1, lastOrderId := 5,
             startAt := 1000, expireAt := 2593000, status := .active }] ∧
    findSub [{ id := 9, userId := 1, planId := 1, lastOrderId := 5,
               startAt := 1000, expireAt := 2593000, status := .active }] 1 =
      some { id := 9, userId := 1, planId := 1, lastOrderId := 5,
             startAt := 1000, expireAt := 2593000, status := .active } :=
  (c5_renewal_semantics
      (fun b y m d => b + 31536000 * y + 2592000 * m + 86400 * d)
      [{ id := 1, code := "m", name := "Monthly", price := 999,
         periodUnit := "month", periodCount := 1, status := 1, sortOrder := 0 }]
      [] 1 1 5 1000 9
      { id := 1, code := "m", name := "Monthly", price := 999,
        periodUnit := "month", periodCount := 1, status := 1, sortOrder := 0 }
      rfl).1 rfl

theorem handleNotifyTx_ok_replay (addDate : Int → Int → Int → Int → Int)
    (st : DBState) (params : Params) (otn tn money : String)
    (now now2 : Int) (nsid nsid2 : Nat) (st1 : DBState)
    (h : handleNotifyTx addDate st params otn tn money now nsid = .ok st1) :
    handleNotifyTx addDate st1 params otn tn money now2 nsid2 = .ok st1 := by
  unfold handleNotifyTx at h ⊢
  rcases hord : findOrderByOutTradeNo st.orders otn with _ | order
  · rw [hord] at h
    cases h
  · rw [hord] at h
    dsimp only [] at h
    by_cases hp : order.status = .paid ∨ order.status = .refunded
    · rw [if_pos hp] at h
      injection h with h'
      subst h'
      rw [hord]
      dsimp only []
      rw [if_pos hp]
    · rw [if_neg hp] at h
      by_cases hc : order.status = .closed
      · rw [if_pos hc] at h
        injection h with h'
        subst h'
        rw [hord]
        dsimp only []
        rw [if_neg hp, if_pos hc]
      · rw [if_neg hc] at h
        rcases hY : YuanToFen money with e | v
        · rw [hY] at h
          dsimp only [] at h
          cases h
        · rw [hY] at h
          dsimp only [] at h
          by_cases hne : v ≠ order.amount
          · rw [if_pos hne] at h
            cases h
          · rw [if_neg hne] at h
            rcases hact : activateOrExtendSubscription addDate st.plans st.subs
                order.userId order.planId order.id now nsid with e | subs'
            · rw [hact] at h
              dsimp only [] at h
              cases h
            · rw [hact] at h
              dsimp only [] at h
              injection h with h'
              subst h'
              have hfind : findOrderByOutTradeNo
                  (st.orders.map fun o => if o.id = order.id then
                    applyNotifyPaid tn (jsonOfParams params) now o else o) otn =
                  some (applyNotifyPaid tn (jsonOfParams params) now order) := by
                unfold findOrderByOutTradeNo at hord ⊢
                rw [find?_map_invariant _ _ _ (fun x => by
                  by_cases hx : x.id = order.id <;> simp [hx, applyNotifyPaid]), hord]
                simp only [Option.map_some']
                simp
              dsimp only []
              rw [hfind]
              dsimp only []
              rw [if_pos (Or.inl (by simp [applyNotifyPaid]))]

/-- C2: replaying the identical, validly signed, successful callback after
a first call that reported success is a no-op returning success: the order
row (status, paidAt, trade number, payload) and the subscription row are
exactly the state left by the first call; the expiry extension of the first
call is not applied again. -/
theorem c2_handle_notify_idempotent (md5hex : String → String)
    (addDate : Int → Int → Int → Int → Int) (cfg : PaymentConfig)
    (st : DBState) (params : Params) (now1 now2 : Int) (nsid1 nsid2 : Nat)
    (hv : Verify md5hex cfg params = true)
    (hs : pget params "trade_status" = "TRADE_SUCCESS")
    (hr1 : (HandleNotify md5hex addDate cfg st params now1 nsid1).2 = none) :
    HandleNotify md5hex addDate cfg
        (HandleNotify md5hex addDate cfg st params now1 nsid1).1 params now2 nsid2 =
      ((HandleNotify md5hex addDate cfg st params now1 nsid1).1, none) := by
  by_cases hfields : pget params "out_trade_no" = "" ∨ pget params "trade_no" = "" ∨
      pget params "money" = ""
  · exfalso
    unfold HandleNotify at hr1
    dsimp only [] at hr1
    rw [if_neg (by simp [hv]), if_pos hfields] at hr1
    cases hr1
  · by_cases hpid : pget params "pid" ≠ "" ∧ pget params "pid" ≠ cfg.pid
    · exfalso
      unfold HandleNotify at hr1
      dsimp only [] at hr1
      rw [if_neg (by simp [hv]), if_neg hfields, if_pos hpid] at hr1
      cases hr1
    · have hH1 : HandleNotify md5hex addDate cfg st params now1 nsid1 =
          match handleNotifyTx addDate st params (pget params "out_trade_no")
              (pget params "trade_no") (pget params "money") now1 nsid1 with
          | .ok st' => (st', none)
          | .error e => (st, some e) := by
        unfold HandleNotify
        dsimp only []
        rw [if_neg (by simp [hv]), if_neg hfields, if_neg hpid, if_neg (by simp [hs])]
      rcases htx : handleNotifyTx addDate st params (pget params "out_trade_no")
          (pget params "trade_no") (pget params "money") now1 nsid1 with e | st1
      · exfalso
        rw [hH1, htx] at hr1
        cases hr1
      · rw [hH1, htx]
        dsimp only []
        have hH2 : HandleNotify md5hex addDate cfg st1 params now2 nsid2 =
            match handleNotifyTx addDate st1 params (pget params "out_trade_no")
                (pget params "trade_no") (pget params "money") now2 nsid2 with
            | .ok st' => (st', none)
            | .error e => (st1, some e) := by
          unfold HandleNotify
          dsimp only []
          rw [if_neg (by simp [hv]), if_neg hfields, if_neg hpid, if_neg (by simp [hs])]
        rw [hH2, handleNotifyTx_ok_replay addDate st params _ _ _ now1 now2 nsid1 nsid2 st1 htx]

/-- Witness for C2: a concrete pending order for 999 minor units, a matching
signed successful callback processed once at time 2000, then replayed at
time 3000: the replay returns success and leaves the state of the first
call unchanged. -/
theorem c2_handle_notify_idempotent_witness :
    Verify (fun _ => "h")
      { enable := true, baseURL := "", pid := "1000", key := "K",
        notifyURL := "", returnURL := "", timeout := 15 }
      [("out_trade_no", "RD1"), ("trade_no", "T1"), ("money", "9.99"),
       ("trade_status", "TRADE_SUCCESS"), ("sign", "h")] = true ∧
    pget [("out_trade_no", "RD1"), ("trade_no", "T1"), ("money", "9.99"),
       ("trade_status", "TRADE_SUCCESS"), ("sign", "h")] "trade_status" = "TRADE_SUCCESS" ∧
    (HandleNotify (fun _ => "h")
      (fun b y m d => b + 31536000 * y + 2592000 * m + 86400 * d)
      { enable := true, baseURL := "", pid := "1000", key := "K",
        notifyURL := "", returnURL := "", timeout := 15 }
      { orders := [{ id := 1, userId := 1, planId := 1, outTradeNo := "RD1",
                     tradeNo := "", subject := "s", amount := 999,
                     amountYuan := "9.99", status := .pending,
                     paySubmitAt := 0, paidAt := 0, refundedAt := 0,
                     notifyPayload := "", createdAt := 0 }],
        subs := [],
        plans := [{ id := 1, code := "m", name := "Monthly", price := 999,
                    periodUnit := "month", periodCount := 1, status := 1,
                    sortOrder := 0 }] }
      [("out_trade_no", "RD1"), ("trade_no", "T1"), ("money", "9.99"),
       ("trade_status", "TRADE_SUCCESS"), ("sign", "h")] 2000 9).2 = none ∧
    HandleNotify (fun _ => "h")
      (fun b y m d => b + 31536000 * y + 2592000 * m + 86400 * d)
      { enable := true, baseURL := "", pid := "1000", key := "K",
        notifyURL := "", returnURL := "", timeout := 15 }
      (HandleNotify (fun _ => "h")
        (fun b y m d => b + 31536000 * y + 2592000 * m + 86400 * d)
        { enable := true, baseURL := "", pid := "1000", key := "K",
          notifyURL := "", returnURL := "", timeout := 15 }
        { orders := [{ id := 1, userId := 1, planId := 1, outTradeNo := "RD1",
                       tradeNo := "", subject := "s", amount := 999,
                       amountYuan := "9.99", status := .pending,
                       paySubmitAt := 0, paidAt := 0, refundedAt := 0,
                       notifyPayload := "", createdAt := 0 }],
          subs := [],
          plans := [{ id := 1, code := "m", name := "Monthly", price := 999,
                      periodUnit := "month", periodCount := 1, status := 1,
                      sortOrder := 0 }] }
        [("out_trade_no", "RD1"), ("trade_no", "T1"), ("money", "9.99"),
         ("trade_status", "TRADE_SUCCESS"), ("sign", "h")] 2000 9).1
      [("out_trade_no", "RD1"), ("trade_no", "T1"), ("money", "9.99"),
       ("trade_status", "TRADE_SUCCESS"), ("sign", "h")] 3000 10 =
      ((HandleNotify (fun _ => "h")
        (fun b y m d => b + 31536000 * y + 2592000 * m + 86400 * d)
        { enable := true, baseURL := "", pid := "1000", key := "K",
          notifyURL := "", returnURL := "", timeout := 15 }
        { orders := [{ id := 1, userId := 1, planId := 1, outTradeNo := "RD1",
                       tradeNo := "", subject := "s", amount := 999,
                       amountYuan := "9.99", status := .pending,
                       paySubmitAt := 0, paidAt := 0, refundedAt := 0,
                       notifyPayload := "", createdAt := 0 }],
          subs := [],
          plans := [{ id := 1, code := "m", name := "Monthly", price := 999,
                      periodUnit := "month", periodCount := 1, status := 1,
                      sortOrder := 0 }] }
        [("out_trade_no", "RD1"), ("trade_no", "T1"), ("money", "9.99"),
         ("trade_status", "TRADE_SUCCESS"), ("sign", "h")] 2000 9).1, none) := by
  refine ⟨rfl, rfl, rfl, ?_⟩
  exact c2_handle_notify_idempotent _ _ _ _ _ 2000 3000 9 10 rfl rfl rfl

theorem handleNotify_orders_cases (md5hex : String → String)
    (addDate : Int → Int → Int → Int → Int) (cfg : PaymentConfig)
    (st : DBState) (params : Params) (now : Int) (nsid : Nat) :
    (HandleNotify md5hex addDate cfg st params now nsid).1 = st ∨
    ∃ order, findOrderByOutTradeNo st.orders (pget params "out_trade_no") = some order ∧
      order.status = .pending ∧
      (HandleNotify md5hex addDate cfg st params now nsid).1.orders =
        st.orders.map fun o => if o.id = order.id then
          applyNotifyPaid (pget params "trade_no") (jsonOfParams params) now o else o := by
  unfold HandleNotify
  dsimp only []
  by_cases hv : Verify md5hex cfg params = true
  · rw [if_neg (by simp [hv])]
    by_cases hfields : pget params "out_trade_no" = "" ∨ pget params "trade_no" = "" ∨
        pget params "money" = ""
    · rw [if_pos hfields]
      exact Or.inl rfl
    · rw [if_neg hfields]
      by_cases hpid : pget params "pid" ≠ "" ∧ pget params "pid" ≠ cfg.pid
      · rw [if_pos hpid]
        exact Or.inl rfl
      · rw [if_neg hpid]
        by_cases hs : pget params "trade_status" = "TRADE_SUCCESS"
        · rw [if_neg (by simp [hs])]
          unfold handleNotifyTx
          rcases hord : findOrderByOutTradeNo st.orders (pget params "out_trade_no")
            with _ | order
          · exact Or.inl rfl
          · dsimp only []
            by_cases hp : order.status = .paid ∨ order.status = .refunded
            · rw [if_pos hp]
              exact Or.inl rfl
            · rw [if_neg hp]
              by_cases hc : order.status = .closed
              · rw [if_pos hc]
                exact Or.inl rfl
              · rw [if_neg hc]
                have hpend : order.status = .pending := by
                  rcases hst : order.status <;> simp_all
                rcases hY : YuanToFen (pget params "money") with e | v
                · exact Or.inl rfl
                · dsimp only []
                  by_cases hne : v ≠ order.amount
                  · rw [if_pos hne]
                    exact Or.inl rfl
                  · rw [if_neg hne]
                    rcases hact : activateOrExtendSubscription addDate st.plans st.subs
                        order.userId order.planId order.id now nsid with e | subs'
                    · exact Or.inl rfl
                    · dsimp only []
                      exact Or.inr ⟨order, rfl, hpend, rfl⟩
        · rw [if_pos (by simp [hs])]
          exact Or.inl rfl
  · rw [if_pos (by simp [hv])]
    exact Or.inl rfl

theorem paymentSubmit_orders_cases (st : DBState) (otn : String) (now : Int)
    (notn : String) (noid : Nat) :
    (PaymentSubmit st otn now notn noid).1.orders = st.orders ∨
    (∃ cur, findOrderByOutTradeNo st.orders otn = some cur ∧ cur.status = .pending ∧
      (PaymentSubmit st otn now notn noid).1.orders =
        (st.orders.map fun o =>
          if o.userId = cur.userId ∧ o.planId = cur.planId ∧ o.status = .pending then
            { o with status := .closed } else o) ++
        [{ id := noid, userId := cur.userId, planId := cur.planId, outTradeNo := notn,
           tradeNo := "", subject := cur.subject, amount := cur.amount,
           amountYuan := cur.amountYuan, status := .pending, paySubmitAt := now,
           paidAt := 0, refundedAt := 0, notifyPayload := "", createdAt := now }]) ∨
    (∃ cur, findOrderByOutTradeNo st.orders otn = some cur ∧
      (PaymentSubmit st otn now notn noid).1.orders =
        st.orders.map fun o => if o.id = cur.id then { o with paySubmitAt := now } else o) := by
  unfold PaymentSubmit
  rcases hord : findOrderByOutTradeNo st.orders otn with _ | cur
  · exact Or.inl rfl
  · dsimp only []
    by_cases hval : cur.status ≠ OrderStatus.pending ∨ cur.amount ≤ 0 ∨
        trimSpaceStr cur.amountYuan = ""
    · rw [if_pos hval]
      exact Or.inl rfl
    · rw [if_neg hval]
      have hpend : cur.status = .pending := not_not.mp (not_or.mp hval).1
      by_cases hdeb : cur.paySubmitAt > 0 ∧ now - cur.paySubmitAt < submitDebounceSeconds
      · rw [if_pos hdeb]
        exact Or.inl rfl
      · rw [if_neg hdeb]
        by_cases hres : cur.paySubmitAt > 0 ∨
            (cur.createdAt ≠ 0 ∧ now - cur.createdAt > pendingOrderStaleAfter)
        · rw [if_pos hres]
          exact Or.inr (Or.inl ⟨cur, rfl, hpend, rfl⟩)
        · rw [if_neg hres]
          exact Or.inr (Or.inr ⟨cur, rfl, rfl⟩)

theorem createOrder_orders_cases (addDate : Int → Int → Int → Int → Int)
    (st : DBState) (userId planId : Nat) (notn : String) (noid nsid : Nat) (now : Int) :
    (CreateOrder addDate st userId planId notn noid nsid now).1.orders = st.orders ∨
    ∃ newOrd : Order, newOrd.id = noid ∧
      (CreateOrder addDate st userId planId notn noid nsid now).1.orders =
        st.orders ++ [newOrd] := by
  unfold CreateOrder
  rcases hpl : findPlan st.plans planId with _ | plan
  · exact Or.inl rfl
  · dsimp only []
    by_cases hst : plan.status ≠ COMMON_STATUS_ENABLE
    · rw [if_pos hst]
      exact Or.inl rfl
    · rw [if_neg hst]
      by_cases hfree : plan.price = 0
      · rw [if_pos hfree]
        rcases hact : activateOrExtendSubscription addDate st.plans st.subs
            userId planId noid now nsid with e | subs'
        · exact Or.inl rfl
        · dsimp only []
          exact Or.inr ⟨_, rfl, rfl⟩
      · rw [if_neg hfree]
        split
        · exact Or.inl rfl
        · exact Or.inr ⟨_, rfl, rfl⟩

theorem refundOrder_orders_cases (st : DBState) (orderId : Nat) (gatewayOk : Bool)
    (now : Int) :
    (RefundOrder st orderId gatewayOk now).1 = st ∨
    ∃ order, findOrderById st.orders orderId = some order ∧ order.status = .paid ∧
      (RefundOrder st orderId gatewayOk now).1.orders =
        st.orders.map fun o => if o.id = order.id then
          { o with status := .refunded, refundedAt := now } else o := by
  unfold RefundOrder
  rcases hord : findOrderById st.orders orderId with _ | order
  · exact Or.inl rfl
  · dsimp only []
    by_cases hp : order.status ≠ OrderStatus.paid
    · rw [if_pos hp]
      exact Or.inl rfl
    · rw [if_neg hp]
      by_cases ht : order.tradeNo = ""
      · rw [if_pos ht]
        exact Or.inl rfl
      · rw [if_neg ht]
        by_cases hg : ¬ gatewayOk = true
        · rw [if_pos (by simpa using hg)]
          exact Or.inl rfl
        · rw [if_neg (by simpa using hg)]
          exact Or.inr ⟨order, rfl, not_not.mp hp, rfl⟩

theorem eq_of_mem_mem_id (l : List Order) (hnd : (l.map Order.id).Nodup)
    (o o' : Order) (ho : o ∈ l) (ho' : o' ∈ l) (h : o'.id = o.id) : o = o' := by
  induction l with
  | nil => cases ho
  | cons a t ih =>
    simp only [List.map_cons, List.nodup_cons] at hnd
    rcases List.mem_cons.mp ho with rfl | ho2
    · rcases List.mem_cons.mp ho' with rfl | ho'2
      · rfl
      · exfalso
        apply hnd.1
        rw [← h]
        exact List.mem_map.mpr ⟨o', ho'2, rfl⟩
    · rcases List.mem_cons.mp ho' with rfl | ho'2
      · exfalso
        apply hnd.1
        rw [h]
        exact List.mem_map.mpr ⟨o, ho2, rfl⟩
      · exact ih hnd.2 ho2 ho'2

theorem orderStepOk_refl (l : List Order) (hnd : (l.map Order.id).Nodup) :
    orderStepOk l l := by
  intro o ho o' ho' h
  rw [eq_of_mem_mem_id l hnd o o' ho ho' h]
  exact Or.inl rfl

theorem orderStepOk_map (l : List Order) (f : Order → Order)
    (hnd : (l.map Order.id).Nodup)
    (hf : ∀ o ∈ l, (f o).id = o.id ∧ allowedTransition o.status (f o).status) :
    orderStepOk l (l.map f) := by
  intro o ho o' ho' hid
  rcases List.mem_map.mp ho' with ⟨b, hb, rfl⟩
  have hb2 : o = b :=
    eq_of_mem_mem_id l hnd o b ho hb (((hf b hb).1).symm.trans hid)
  subst hb2
  exact (hf o ho).2

theorem orderStepOk_append (l l' extra : List Order) (h : orderStepOk l l')
    (hfresh : ∀ e ∈ extra, ∀ o ∈ l, e.id ≠ o.id) : orderStepOk l (l' ++ extra) := by
  intro o ho o' ho' hid
  rcases List.mem_append.mp ho' with h' | h'
  · exact h o ho o' h' hid
  · exact absurd hid (hfresh o' h' o ho)

/-- C1: under the database invariant of unique order primary keys and fresh
keys for inserts, each of HandleNotify, the payment submission step,
CreateOrder and RefundOrder moves every persisted order only along the
allowed transitions pending to paid, pending to closed and paid to
refunded (or leaves its status unchanged). -/
theorem c1_status_transitions (st : DBState)
    (hnd : (st.orders.map Order.id).Nodup) :
    (∀ (md5hex : String → String) (addDate : Int → Int → Int → Int → Int)
       (cfg : PaymentConfig) (params : Params) (now : Int) (nsid : Nat),
       orderStepOk st.orders (HandleNotify md5hex addDate cfg st params now nsid).1.orders) ∧
    (∀ (otn : String) (now : Int) (notn : String) (noid : Nat),
       noid ∉ st.orders.map Order.id →
       orderStepOk st.orders (PaymentSubmit st otn now notn noid).1.orders) ∧
    (∀ (addDate : Int → Int → Int → Int → Int) (userId planId : Nat)
       (notn : String) (noid nsid : Nat) (now : Int),
       noid ∉ st.orders.map Order.id →
       orderStepOk st.orders (CreateOrder addDate st userId planId notn noid nsid now).1.orders) ∧
    (∀ (oid : Nat) (gok : Bool) (now : Int),
       orderStepOk st.orders (RefundOrder st oid gok now).1.orders) := by
  refine ⟨?_, ?_, ?_, ?_⟩
  · intro md5hex addDate cfg params now nsid
    rcases handleNotify_orders_cases md5hex addDate cfg st params now nsid with
      hsame | ⟨order, hord, hpend, hmap⟩
    · rw [hsame]
      exact orderStepOk_refl _ hnd
    · rw [hmap]
      apply orderStepOk_map _ _ hnd
      intro o ho
      by_cases hid : o.id = order.id
      · have hoo : o = order :=
          eq_of_mem_mem_id st.orders hnd o order ho
            (List.mem_of_find?_eq_some hord) hid.symm
        rw [if_pos hid]
        refine ⟨rfl, Or.inr (Or.inl ⟨?_, rfl⟩)⟩
        rw [hoo]
        exact hpend
      · rw [if_neg hid]
        exact ⟨rfl, Or.inl rfl⟩
  · intro otn now notn noid hfresh
    rcases paymentSubmit_orders_cases st otn now notn noid with
      hsame | ⟨cur, hord, hpend, hmap⟩ | ⟨cur, hord, hmap⟩
    · rw [hsame]
      exact orderStepOk_refl _ hnd
    · rw [hmap]
      apply orderStepOk_append
      · apply orderStepOk_map _ _ hnd
        intro o ho
        by_cases hc : o.userId = cur.userId ∧ o.planId = cur.planId ∧
            o.status = OrderStatus.pending
        · rw [if_pos hc]
          exact ⟨rfl, Or.inr (Or.inr (Or.inl ⟨hc.2.2, rfl⟩))⟩
        · rw [if_neg hc]
          exact ⟨rfl, Or.inl rfl⟩
      · intro e he o ho
        have he2 := List.mem_singleton.mp he
        subst he2
        intro heq
        apply hfresh
        exact List.mem_map.mpr ⟨o, ho, heq.symm⟩
    · rw [hmap]
      apply orderStepOk_map _ _ hnd
      intro o ho
      by_cases hc : o.id = cur.id
      · rw [if_pos hc]
        exact ⟨rfl, Or.inl rfl⟩
      · rw [if_neg hc]
        exact ⟨rfl, Or.inl rfl⟩
  · intro addDate userId planId notn noid nsid now hfresh
    rcases createOrder_orders_cases addDate st userId planId notn noid nsid now with
      hsame | ⟨newOrd, hny, hmap⟩
    · rw [hsame]
      exact orderStepOk_refl _ hnd
    · rw [hmap]
      apply orderStepOk_append _ _ _ (orderStepOk_refl _ hnd)
      intro e he o ho
      have he2 := List.mem_singleton.mp he
      subst he2
      intro heq
      apply hfresh
      exact List.mem_map.mpr ⟨o, ho, heq.symm.trans hny⟩
  · intro oid gok now
    rcases refundOrder_orders_cases st oid gok now with
      hsame | ⟨order, hord, hpaid, hmap⟩
    · rw [hsame]
      exact orderStepOk_refl _ hnd
    · rw [hmap]
      apply orderStepOk_map _ _ hnd
      intro o ho
      by_cases hc : o.id = order.id
      · have hoo : o = order :=
          eq_of_mem_mem_id st.orders hnd o order ho
            (List.mem_of_find?_eq_some hord) hc.symm
        rw [if_pos hc]
        refine ⟨rfl, Or.inr (Or.inr (Or.inr ⟨?_, rfl⟩))⟩
        rw [hoo]
        exact hpaid
      · rw [if_neg hc]
        exact ⟨rfl, Or.inl rfl⟩

/-- Witness for C1: a two-order state (one pending, one paid) run through
each of the four operations at concrete arguments with fresh insert keys. -/
theorem c1_status_transitions_witness :
    orderStepOk [{ id := 1, userId := 1, planId := 1, outTradeNo := "RD1", tradeNo := "", subject := "s", amount := 999, amountYuan := "9.99", status := .pending, paySubmitAt := 0, paidAt := 0, refundedAt := 0, notifyPayload := "", createdAt := 0 }, { id := 2, userId := 2, planId := 1, outTradeNo := "RD2", tradeNo := "T2", subject := "s", amount := 999, amountYuan := "9.99", status := .paid, paySubmitAt := 0, paidAt := 100, refundedAt := 0, notifyPayload := "", createdAt := 0 }] ((HandleNotify (fun (_ : String) => "h") (fun b y m d => b + 31536000 * y + 2592000 * m + 86400 * d) { enable := true, baseURL := "", pid := "1000", key := "K", notifyURL := "", returnURL := "", timeout := 15 } { orders := [{ id := 1, userId := 1, planId := 1, outTradeNo := "RD1", tradeNo := "", subject := "s", amount := 999, amountYuan := "9.99", status := .pending, paySubmitAt := 0, paidAt := 0, refundedAt := 0, notifyPayload := "", createdAt := 0 }, { id := 2, userId := 2, planId := 1, outTradeNo := "RD2", tradeNo := "T2", subject := "s", amount := 999, amountYuan := "9.99", status := .paid, paySubmitAt := 0, paidAt := 100, refundedAt := 0, notifyPayload := "", createdAt := 0 }], subs := [], plans := [{ id := 1, code := "m", name := "Monthly", price := 999, periodUnit := "month", periodCount := 1, status := 1, sortOrder := 0 }] } [("out_trade_no", "RD1"), ("trade_no", "T1"), ("money", "9.99"), ("trade_status", "TRADE_SUCCESS"), ("sign", "h")] 2000 9).1).orders ∧
    orderStepOk [{ id := 1, userId := 1, planId := 1, outTradeNo := "RD1", tradeNo := "", subject := "s", amount := 999, amountYuan := "9.99", status := .pending, paySubmitAt := 0, paidAt := 0, refundedAt := 0, notifyPayload := "", createdAt := 0 }, { id := 2, userId := 2, planId := 1, outTradeNo := "RD2", tradeNo := "T2", subject := "s", amount := 999, amountYuan := "9.99", status := .paid, paySubmitAt := 0, paidAt := 100, refundedAt := 0, notifyPayload := "", createdAt := 0 }] ((PaymentSubmit { orders := [{ id := 1, userId := 1, planId := 1, outTradeNo := "RD1", tradeNo := "", subject := "s", amount := 999, amountYuan := "9.99", status := .pending, paySubmitAt := 0, paidAt := 0, refundedAt := 0, notifyPayload := "", createdAt := 0 }, { id := 2, userId := 2, planId := 1, outTradeNo := "RD2", tradeNo := "T2", subject := "s", amount := 999, amountYuan := "9.99", status := .paid, paySubmitAt := 0, paidAt := 100, refundedAt := 0, notifyPayload := "", createdAt := 0 }], subs := [], plans := [{ id := 1, code := "m", name := "Monthly", price := 999, periodUnit := "month", periodCount := 1, status := 1, sortOrder := 0 }] } "RD1" 5000 "RD9" 3).1).orders ∧
    orderStepOk [{ id := 1, userId := 1, planId := 1, outTradeNo := "RD1", tradeNo := "", subject := "s", amount := 999, amountYuan := "9.99", status := .pending, paySubmitAt := 0, paidAt := 0, refundedAt := 0, notifyPayload := "", createdAt := 0 }, { id := 2, userId := 2, planId := 1, outTradeNo := "RD2", tradeNo := "T2", subject := "s", amount := 999, amountYuan := "9.99", status := .paid, paySubmitAt := 0, paidAt := 100, refundedAt := 0, notifyPayload := "", createdAt := 0 }] ((CreateOrder (fun b y m d => b + 31536000 * y + 2592000 * m + 86400 * d) { orders := [{ id := 1, userId := 1, planId := 1, outTradeNo := "RD1", tradeNo := "", subject := "s", amount := 999, amountYuan := "9.99", status := .pending, paySubmitAt := 0, paidAt := 0, refundedAt := 0, notifyPayload := "", createdAt := 0 }, { id := 2, userId := 2, planId := 1, outTradeNo := "RD2", tradeNo := "T2", subject := "s", amount := 999, amountYuan := "9.99", status := .paid, paySubmitAt := 0, paidAt := 100, refundedAt := 0, notifyPayload := "", createdAt := 0 }], subs := [], plans := [{ id := 1, code := "m", name := "Monthly", price := 999, periodUnit := "month", periodCount := 1, status := 1, sortOrder := 0 }] } 1 1 "RD10" 4 11 6000).1).orders ∧
    orderStepOk [{ id := 1, userId := 1, planId := 1, outTradeNo := "RD1", tradeNo := "", subject := "s", amount := 999, amountYuan := "9.99", status := .pending, paySubmitAt := 0, paidAt := 0, refundedAt := 0, notifyPayload := "", createdAt := 0 }, { id := 2, userId := 2, planId := 1, outTradeNo := "RD2", tradeNo := "T2", subject := "s", amount := 999, amountYuan := "9.99", status := .paid, paySubmitAt := 0, paidAt := 100, refundedAt := 0, notifyPayload := "", createdAt := 0 }] ((RefundOrder { orders := [{ id := 1, userId := 1, planId := 1, outTradeNo := "RD1", tradeNo := "", subject := "s", amount := 999, amountYuan := "9.99", status := .pending, paySubmitAt := 0, paidAt := 0, refundedAt := 0, notifyPayload := "", createdAt := 0 }, { id := 2, userId := 2, planId := 1, outTradeNo := "RD2", tradeNo := "T2", subject := "s", amount := 999, amountYuan := "9.99", status := .paid, paySubmitAt := 0, paidAt := 100, refundedAt := 0, notifyPayload := "", createdAt := 0 }], subs := [], plans := [{ id := 1, code := "m", name := "Monthly", price := 999, periodUnit := "month", periodCount := 1, status := 1, sortOrder := 0 }] } 2 true 7000).1).orders := by
  have h := c1_status_transitions { orders := [{ id := 1, userId := 1, planId := 1, outTradeNo := "RD1", tradeNo := "", subject := "s", amount := 999, amountYuan := "9.99", status := .pending, paySubmitAt := 0, paidAt := 0, refundedAt := 0, notifyPayload := "", createdAt := 0 }, { id := 2, userId := 2, planId := 1, outTradeNo := "RD2", tradeNo := "T2", subject := "s", amount := 999, amountYuan := "9.99", status := .paid, paySubmitAt := 0, paidAt := 100, refundedAt := 0, notifyPayload := "", createdAt := 0 }], subs := [], plans := [{ id := 1, code := "m", name := "Monthly", price := 999, periodUnit := "month", periodCount := 1, status := 1, sortOrder := 0 }] } (by decide)
  exact ⟨h.1 (fun (_ : String) => "h") (fun b y m d => b + 31536000 * y + 2592000 * m + 86400 * d) { enable := true, baseURL := "", pid := "1000", key := "K", notifyURL := "", returnURL := "", timeout := 15 } [("out_trade_no", "RD1"), ("trade_no", "T1"), ("money", "9.99"), ("trade_status", "TRADE_SUCCESS"), ("sign", "h")] 2000 9,
    h.2.1 "RD1" 5000 "RD9" 3 (by decide),
    h.2.2.1 (fun b y m d => b + 31536000 * y + 2592000 * m + 86400 * d) 1 1 "RD10" 4 11 6000 (by decide),
    h.2.2.2 2 true 7000⟩
